import Mathlib

/-!
Verification development for `serve-local.py`, a 19-line static-file HTTP
server.  The script itself contributes: the two cross-origin isolation
headers appended by the overridden `end_headers` (lines 9-12), the
hard-coded root directory passed to `os.chdir` (line 14), the listener
address `("", 8000)` (lines 6, 16), the two startup announcement lines
(lines 17-18) and the `serve_forever` call (line 19).  Everything else
(request-path resolution, file serving, directory listings, 404 pages,
bind semantics) lives in the Python standard library, whose sources are
not part of this repository; those parts are modelled from the spec, with
each such definition marked `Modelled from the spec:` in its doc comment.
-/

namespace ServeLocal

/-- Port constant, `PORT = 8000` (line 6 of serve-local.py). -/
def PORT : Nat := 8000

/-- Hard-coded root directory passed to `os.chdir` (line 14). -/
def ROOT_DIR : String := "/mnt/c/Users/millz/vib34d-fix"

/-- The two cross-origin isolation headers sent by the overridden
`end_headers` (lines 10-11), with their exact names and values. -/
def coiHeaders : List (String × String) :=
  [("Cross-Origin-Embedder-Policy", "require-corp"),
   ("Cross-Origin-Opener-Policy", "same-origin")]

/-- `MyHTTPRequestHandler.end_headers` (lines 9-12): given the header block
buffered so far, append the two cross-origin isolation headers and then
finalize the block (`super().end_headers()`). -/
def end_headers (hs : List (String × String)) : List (String × String) :=
  hs ++ coiHeaders

/-- A filesystem tree: a regular file with byte contents (modelled as a
string of bytes), or a directory with named children. -/
inductive Entry : Type
  | file (content : String)
  | dir (children : List (String × Entry))

/-- Look a name up among a directory's children (first match wins). -/
def findEntry (cs : List (String × Entry)) (name : String) : Option Entry :=
  match cs with
  | [] => none
  | (n, e) :: rest => if n = name then some e else findEntry rest name

/-- Walk a component path down a filesystem tree. -/
def lookupPath : List String → Entry → Option Entry
  | [], e => some e
  | _ :: _, Entry.file _ => none
  | n :: rest, Entry.dir cs =>
      match findEntry cs n with
      | none => none
      | some e => lookupPath rest e

/-- Characters of a string up to (and excluding) the first occurrence of
`stop`; the whole string when `stop` does not occur.  This is Python's
`s.split(stop, 1)[0]`. -/
def takeUntil (stop : Char) : List Char → List Char
  | [] => []
  | c :: cs => if c = stop then [] else c :: takeUntil stop cs

/-- Split a character list on the slash character, keeping empty pieces,
exactly like Python's `path.split('/')`. -/
def splitSlash : List Char → List (List Char)
  | [] => [[]]
  | c :: cs =>
      if c = '/' then [] :: splitSlash cs
      else
        match splitSlash cs with
        | [] => [[c]]
        | w :: ws => (c :: w) :: ws

/-- Drop trailing whitespace, Python's `s.rstrip()`. -/
def rstripWS (l : List Char) : List Char :=
  (l.reverse.dropWhile Char.isWhitespace).reverse

/-- Whether the path (after stripping trailing whitespace) ends in a slash,
Python's `path.rstrip().endswith('/')` from `translate_path`. -/
def hasTrailingSlash (l : List Char) : Bool :=
  (rstripWS l).getLast? == some '/'

/-- Modelled from the spec: one step of `posixpath.normpath` (standard
library code used by `SimpleHTTPRequestHandler.translate_path`, not part of
this repository's sources).  Empty and `.` components are dropped; `..`
pops the previous component, except above the root of an absolute path
(where it is dropped) or at the front of a relative path (kept). -/
def normStep (abs : Bool) (acc : List String) (w : String) : List String :=
  if w = "" ∨ w = "." then acc
  else if w ≠ ".." ∨ (abs = false ∧ acc = []) ∨ acc.getLast? = some ".." then
    acc ++ [w]
  else if acc = [] then acc
  else acc.dropLast

/-- Modelled from the spec: `posixpath.normpath` on the component list of a
path whose absoluteness is `abs`. -/
def normComps (abs : Bool) (ws : List String) : List String :=
  ws.foldl (normStep abs) []

/-- The raw slash-separated words of a request path after stripping the
query (`?...`) and fragment (`#...`) parts. -/
def rawWords (p : String) : List String :=
  (splitSlash (takeUntil '#' (takeUntil '?' p.data))).map (fun w => String.mk w)

/-- Whether the request path (query and fragment stripped) is absolute. -/
def isAbs (p : String) : Bool :=
  (takeUntil '#' (takeUntil '?' p.data)).head? == some '/'

/-- Whether the request path asks for a directory (trailing slash), as
computed by `translate_path` before normalization. -/
def reqTrailingSlash (p : String) : Bool :=
  hasTrailingSlash (takeUntil '#' (takeUntil '?' p.data))

/-- Modelled from the spec: the component names that
`SimpleHTTPRequestHandler.translate_path` (standard library, not in this
repository) joins onto the root directory: normalize the path, then keep
only plain names, skipping empty components, `.` and `..`.
Percent-decoding of the URL is not modelled. -/
def goodWords (p : String) : List String :=
  (normComps (isAbs p) (rawWords p)).filter
    (fun w => !(w == "" || w == "." || w == ".."))

/-- Modelled from the spec: the absolute filesystem path that
`translate_path` produces, as a component list.  It starts at the root
directory's own components and joins only the acceptable words, mirroring
`path = self.directory` followed by `path = os.path.join(path, word)` for
each accepted word. -/
def translate_path (root : List String) (p : String) : List String :=
  root ++ goodWords p

/-- An HTTP response: status code, the finalized header block, and the
body bytes (modelled as a string of bytes). -/
structure Response : Type where
  status : Nat
  headers : List (String × String)
  body : String

/-- Modelled from the spec: content-type inference from the file
extension, done by the standard library's `guess_type` (not in this
repository).  Only the handful of types exercised by this repository's
pages is distinguished; everything else is a generic byte stream. -/
def guess_type (name : String) : String :=
  if ".html".data.isSuffixOf name.data then "text/html"
  else if ".js".data.isSuffixOf name.data then "text/javascript"
  else if ".css".data.isSuffixOf name.data then "text/css"
  else if ".json".data.isSuffixOf name.data then "application/json"
  else "application/octet-stream"

/-- Modelled from the spec: `html.escape` with `quote=False`, used by the
directory-listing generator for display names. -/
def escapeHtml (s : String) : String :=
  String.mk (s.data.flatMap (fun c =>
    if c = '&' then "&amp;".data
    else if c = '<' then "&lt;".data
    else if c = '>' then "&gt;".data
    else [c]))

/-- The display name of a directory entry in a listing: directories get a
trailing slash. -/
def displayName : String × Entry → String
  | (n, Entry.dir _) => n ++ "/"
  | (n, Entry.file _) => n

/-- One `<li>` line of the generated directory listing (the link target is
the entry name; percent-encoding of the href is not modelled). -/
def listingLine (ne : String × Entry) : String :=
  "<li><a href=\"" ++ displayName ne ++ "\">" ++
    escapeHtml (displayName ne) ++ "</a></li>"

/-- Concatenation of a list of strings. -/
def concatAll : List String → String
  | [] => ""
  | s :: rest => s ++ concatAll rest

/-- Modelled from the spec: the autogenerated HTML directory-listing page,
one line per entry of the directory being listed. -/
def listingBody (title : String) (cs : List (String × Entry)) : String :=
  "<!DOCTYPE HTML><html><head><title>Directory listing for " ++
    escapeHtml title ++ "</title></head><body><h1>Directory listing for " ++
    escapeHtml title ++ "</h1><hr><ul>" ++
    concatAll (cs.map listingLine) ++ "</ul><hr></body></html>"

/-- Modelled from the spec: the small HTML page that `send_error` puts in
the body of an error response. -/
def errorBody (code : Nat) (message : String) : String :=
  "<!DOCTYPE HTML><html><head><title>Error response</title></head><body>" ++
    "<h1>Error response</h1><p>Error code: " ++ toString code ++
    "</p><p>Message: " ++ message ++ "</p></body></html>"

/-- A filesystem effect performed while handling a request.  Reading
effects leave the filesystem unchanged; the writing effects are part of
the effect vocabulary (so that their absence is a statement, not a
tautology) but are never emitted by the server. -/
inductive FSEff : Type
  | readFile (p : List String)
  | listDir (p : List String)
  | statPath (p : List String)
  | writeFile (p : List String) (content : String)
  | removePath (p : List String)

/-- Create or overwrite the file at a component path in a tree. -/
def fsWrite : List String → String → Entry → Entry
  | [], c, _ => Entry.file c
  | _ :: _, _, Entry.file b => Entry.file b
  | n :: rest, c, Entry.dir cs =>
      Entry.dir (cs.map (fun ne => if ne.1 = n then (ne.1, fsWrite rest c ne.2) else ne))

/-- Remove the entry at a component path from a tree. -/
def fsRemove : List String → Entry → Entry
  | [], e => e
  | _ :: _, Entry.file b => Entry.file b
  | [n], Entry.dir cs => Entry.dir (cs.filter (fun ne => !(ne.1 == n)))
  | n :: rest, Entry.dir cs =>
      Entry.dir (cs.map (fun ne => if ne.1 = n then (ne.1, fsRemove rest ne.2) else ne))

/-- Apply one filesystem effect to a filesystem tree. -/
def applyEff (fs : Entry) : FSEff → Entry
  | FSEff.readFile _ => fs
  | FSEff.listDir _ => fs
  | FSEff.statPath _ => fs
  | FSEff.writeFile p c => fsWrite p c fs
  | FSEff.removePath p => fsRemove p fs

/-- Whether an effect only reads the filesystem. -/
def FSEff.isReadOnly : FSEff → Bool
  | FSEff.readFile _ => true
  | FSEff.listDir _ => true
  | FSEff.statPath _ => true
  | FSEff.writeFile _ _ => false
  | FSEff.removePath _ => false

/-- The index files probed before generating a directory listing: the
first of `index.html`, `index.htm` that exists as a regular file. -/
def findIndexFile (cs : List (String × Entry)) : Option (String × String) :=
  match findEntry cs "index.html" with
  | some (Entry.file c) => some ("index.html", c)
  | _ =>
      match findEntry cs "index.htm" with
      | some (Entry.file c) => some ("index.htm", c)
      | _ => none

/-- Modelled from the spec: `SimpleHTTPRequestHandler.do_GET`/`send_head`
(standard library, not in this repository) as subclassed by
`MyHTTPRequestHandler`: resolve the request path under the root, then
serve the file bytes, redirect a directory path lacking its trailing
slash, serve an index file or a generated listing for a directory, and
send a 404 when nothing resolves.  Every branch finalizes its header
block through the overridden `end_headers`, which appends the two
cross-origin isolation headers.  The result carries the response together
with the filesystem effects performed. -/
def handleGET (root : Entry) (p : String) : Response × List FSEff :=
  match lookupPath (goodWords p) root with
  | none =>
      (⟨404, end_headers [("Content-Type", "text/html;charset=utf-8")],
        errorBody 404 "File not found"⟩, [FSEff.statPath (goodWords p)])
  | some (Entry.file c) =>
      if reqTrailingSlash p then
        (⟨404, end_headers [("Content-Type", "text/html;charset=utf-8")],
          errorBody 404 "File not found"⟩, [FSEff.statPath (goodWords p)])
      else
        (⟨200, end_headers [("Content-Type", guess_type ((goodWords p).getLastD ""))], c⟩,
         [FSEff.statPath (goodWords p), FSEff.readFile (goodWords p)])
  | some (Entry.dir cs) =>
      if reqTrailingSlash p then
        match findIndexFile cs with
        | some (iname, c) =>
            (⟨200, end_headers [("Content-Type", guess_type iname)], c⟩,
             [FSEff.statPath (goodWords p), FSEff.readFile (goodWords p ++ [iname])])
        | none =>
            (⟨200, end_headers [("Content-Type", "text/html;charset=utf-8")],
              listingBody p cs⟩,
             [FSEff.statPath (goodWords p), FSEff.listDir (goodWords p)])
      else
        (⟨301, end_headers [("Location", p ++ "/")], ""⟩,
         [FSEff.statPath (goodWords p)])

/-- Apply a list of filesystem effects in order. -/
def runEffects (fs : Entry) (effs : List FSEff) : Entry :=
  effs.foldl applyEff fs

/-- Serve a whole lifetime of requests, threading the filesystem through
the effects each request performs. -/
def serveAll (fs : Entry) (reqs : List String) : Entry :=
  reqs.foldl (fun s p => runEffects s (handleGET s p).2) fs

/-- Startup events of the script body (lines 14-19): the working-directory
change, the listener bind, the two announcement prints, and entering the
accept loop. -/
inductive Event : Type
  | chdirDone (dir : String)
  | bound (host : String) (port : Nat)
  | printedLine (s : String)
  | serving
deriving DecidableEq

/-- The two ways startup can die: `os.chdir` on a missing directory, or a
listener bind failure (port in use / insufficient privilege). -/
inductive StartupError : Type
  | chdirNoSuchDir
  | bindFailed
deriving DecidableEq

/-- The facts of the machine the script starts on: whether the hard-coded
root directory exists, and whether the port can be bound. -/
structure Env : Type where
  rootExists : Bool
  portFree : Bool

/-- First announcement line (line 17). -/
def line1 : String := "🌐 Serving VIB34D system at http://localhost:" ++ toString PORT

/-- Second announcement line (line 18). -/
def line2 : String := "📋 Live test: http://localhost:" ++ toString PORT ++ "/live-test.html"

/-- Modelled from the spec: the process-level effect sequence of lines
14-19.  `os.chdir` raises when the directory is missing;
`socketserver.TCPServer(...)` binds the listener in its constructor,
raising when the port cannot be bound; the two prints follow; then
`serve_forever` starts accepting connections.  No code in the script
catches either exception, so a raised error propagates uncaught and the
interpreter exits non-zero after the traceback is written to the console.
The result is the trace of completed events together with the fatal error,
if any. -/
def runMain (env : Env) : List Event × Option StartupError :=
  if env.rootExists = false then
    ([], some StartupError.chdirNoSuchDir)
  else if env.portFree = false then
    ([Event.chdirDone ROOT_DIR], some StartupError.bindFailed)
  else
    ([Event.chdirDone ROOT_DIR, Event.bound "" PORT,
      Event.printedLine line1, Event.printedLine line2, Event.serving], none)

/-- Whether the process exits with a non-zero status on this machine: an
uncaught startup exception does, a server that reaches `serve_forever`
never exits on its own. -/
def exitsNonZero (env : Env) : Bool :=
  (runMain env).2.isSome

/-- Host part of the listener address `("", PORT)` (line 16). -/
def serverHost : String := ""

/-- Modelled from the spec: standard TCP bind semantics, absent from this
repository's sources.  A listener bound to the empty (wildcard) host
accepts connections arriving on every interface; a listener bound to a
concrete host only accepts connections arriving on that interface. -/
def acceptsOnInterface (boundHost iface : String) : Bool :=
  boundHost == "" || boundHost == iface

/-- Substring relation on strings: `small` occurs contiguously in `big`. -/
def strContains (big small : String) : Prop :=
  ∃ pre post, big = pre ++ (small ++ post)

end ServeLocal

namespace ServeLocal

example : goodWords "/live-test.html" = ["live-test.html"] := by decide

example : goodWords "/../../etc/passwd" = ["etc", "passwd"] := by decide

example : goodWords "/assets/" = ["assets"] := by decide

example : reqTrailingSlash "/assets/" = true := by decide

example : reqTrailingSlash "/live-test.html" = false := by decide

example : goodWords "/a/../b/./c//d?x=1#f" = ["b", "c", "d"] := by decide

/-- Anything in the cross-origin isolation header list survives into the
block finalized by `end_headers`. -/
theorem mem_end_headers_coi (hs : List (String × String)) (x : String × String)
    (hx : x ∈ coiHeaders) : x ∈ end_headers hs := by
  simp only [end_headers, List.mem_append]
  exact Or.inr hx

/-- Every branch of the handler finalizes its headers through
`end_headers`. -/
theorem handleGET_headers_end (root : Entry) (p : String) :
    ∃ hs, (handleGET root p).1.headers = end_headers hs := by
  unfold handleGET
  split
  · exact ⟨_, rfl⟩
  · split
    · exact ⟨_, rfl⟩
    · exact ⟨_, rfl⟩
  · split
    · split
      · exact ⟨_, rfl⟩
      · exact ⟨_, rfl⟩
    · exact ⟨_, rfl⟩

/-- Walking an appended path is walking the two pieces in sequence. -/
theorem lookupPath_append (xs ys : List String) (e : Entry) :
    lookupPath (xs ++ ys) e = (lookupPath xs e).bind (fun m => lookupPath ys m) := by
  induction xs generalizing e with
  | nil => simp [lookupPath]
  | cons n rest ih =>
      cases e with
      | file c => simp [lookupPath]
      | dir cs =>
          simp only [List.cons_append, lookupPath]
          cases hfe : findEntry cs n with
          | none => simp
          | some e2 => simpa using ih e2

/-- A string occurring between two others occurs in the whole. -/
theorem strContains_intro (a s b : String) : strContains (a ++ s ++ b) s :=
  ⟨a, b, by rw [String.append_assoc]⟩

/-- Substring occurrence survives surrounding the larger string. -/
theorem strContains_mono (a b m s : String) (h : strContains m s) :
    strContains (a ++ m ++ b) s := by
  obtain ⟨p, q, hpq⟩ := h
  exact ⟨a ++ p, q ++ b, by rw [hpq]; simp only [String.append_assoc]⟩

/-- Substring occurrence is transitive. -/
theorem strContains_trans (a m s : String) (h1 : strContains a m)
    (h2 : strContains m s) : strContains a s := by
  obtain ⟨p, q, hpq⟩ := h1
  obtain ⟨p2, q2, hpq2⟩ := h2
  exact ⟨p ++ p2, q2 ++ q, by rw [hpq, hpq2]; simp only [String.append_assoc]⟩

/-- Each mapped element occurs in the concatenation of the mapped list. -/
theorem concatAll_contains {α : Type} (f : α → String) (cs : List α) (x : α)
    (h : x ∈ cs) : strContains (concatAll (cs.map f)) (f x) := by
  induction cs with
  | nil => cases h
  | cons hd tl ih =>
      cases h with
      | head =>
          exact ⟨"", concatAll (tl.map f),
            by simp [concatAll, String.empty_append]⟩
      | tail _ hmem =>
          obtain ⟨p, q, hpq⟩ := ih hmem
          exact ⟨f hd ++ p, q,
            by simp [concatAll, hpq, String.append_assoc]⟩

/-- The handler only performs reading effects. -/
theorem handleGET_effects_readOnly (root : Entry) (p : String) :
    ((handleGET root p).2.all FSEff.isReadOnly) = true := by
  unfold handleGET
  split
  · rfl
  · split
    · rfl
    · rfl
  · split
    · split
      · rfl
      · rfl
    · rfl

/-- A reading effect leaves the filesystem unchanged. -/
theorem applyEff_of_readOnly (fs : Entry) (e : FSEff) (h : e.isReadOnly = true) :
    applyEff fs e = fs := by
  cases e with
  | readFile _ => rfl
  | listDir _ => rfl
  | statPath _ => rfl
  | writeFile _ _ => simp [FSEff.isReadOnly] at h
  | removePath _ => simp [FSEff.isReadOnly] at h

/-- A list of reading effects leaves the filesystem unchanged. -/
theorem runEffects_of_readOnly (fs : Entry) (effs : List FSEff)
    (h : effs.all FSEff.isReadOnly = true) : runEffects fs effs = fs := by
  induction effs generalizing fs with
  | nil => rfl
  | cons e rest ih =>
      rw [List.all_cons, Bool.and_eq_true] at h
      have h1 : runEffects fs (e :: rest) = runEffects (applyEff fs e) rest := rfl
      rw [h1, applyEff_of_readOnly fs e h.1]
      exact ih fs h.2

/-- Serving any sequence of requests leaves the filesystem unchanged. -/
theorem serveAll_id (fs : Entry) (reqs : List String) : serveAll fs reqs = fs := by
  induction reqs with
  | nil => rfl
  | cons r rest ih =>
      have h1 : runEffects fs (handleGET fs r).2 = fs :=
        runEffects_of_readOnly fs _ (handleGET_effects_readOnly fs r)
      calc serveAll fs (r :: rest)
          = serveAll (runEffects fs (handleGET fs r).2) rest := rfl
        _ = serveAll fs rest := by rw [h1]
        _ = fs := ih

/-- C1: every response the handler produces — 200 file response, 404
error response, directory listing or redirect — carries the header
`Cross-Origin-Embedder-Policy: require-corp` and the header
`Cross-Origin-Opener-Policy: same-origin`, because every branch finalizes
its header block through the overridden `end_headers`. -/
theorem c1_every_response_has_coi_headers (root : Entry) (p : String) :
    ("Cross-Origin-Embedder-Policy", "require-corp") ∈ (handleGET root p).1.headers ∧
    ("Cross-Origin-Opener-Policy", "same-origin") ∈ (handleGET root p).1.headers := by
  obtain ⟨hs, hh⟩ := handleGET_headers_end root p
  rw [hh]
  exact ⟨mem_end_headers_coi hs _ (by simp [coiHeaders]),
         mem_end_headers_coi hs _ (by simp [coiHeaders])⟩

/-- C2: path resolution never escapes the root: the translated filesystem
path always extends the root directory's components, every joined word is
a plain name (never empty, `.` or `..`), and resolving the translated
path in the whole filesystem gives exactly what resolving the surviving
words inside the root's own subtree gives — so no entry outside the root
can ever be reached, for traversal requests included. -/
theorem c2_traversal_confined (world rootE : Entry) (rootComps : List String)
    (p : String) (h : lookupPath rootComps world = some rootE) :
    rootComps <+: translate_path rootComps p ∧
    (∀ w ∈ goodWords p, w ≠ "" ∧ w ≠ "." ∧ w ≠ "..") ∧
    lookupPath (translate_path rootComps p) world =
      lookupPath (goodWords p) rootE := by
  refine ⟨⟨goodWords p, rfl⟩, ?_, ?_⟩
  · intro w hw
    simp only [goodWords, List.mem_filter] at hw
    have hpred := hw.2
    simp only [Bool.not_eq_true', Bool.or_eq_false_iff, beq_eq_false_iff_ne] at hpred
    exact ⟨hpred.1.1, hpred.1.2, hpred.2⟩
  · rw [translate_path, lookupPath_append, h]
    rfl

/-- C3: when `live-test.html` exists as a regular file at the top of the
root with contents `b`, `GET /live-test.html` returns status 200 with
body byte-for-byte equal to `b`. -/
theorem c3_get_live_test_html (root : Entry) (b : String)
    (h : lookupPath ["live-test.html"] root = some (Entry.file b)) :
    (handleGET root "/live-test.html").1.status = 200 ∧
    (handleGET root "/live-test.html").1.body = b := by
  have hg : goodWords "/live-test.html" = ["live-test.html"] := by decide
  have ht : reqTrailingSlash "/live-test.html" = false := by decide
  unfold handleGET
  rw [hg, h]
  simp [ht]

/-- C4: a request path that resolves to nothing under the root returns
status 404, and that error response still carries the two mandatory
cross-origin isolation headers. -/
theorem c4_missing_resolves_404 (root : Entry) (p : String)
    (h : lookupPath (goodWords p) root = none) :
    (handleGET root p).1.status = 404 ∧
    ("Cross-Origin-Embedder-Policy", "require-corp") ∈ (handleGET root p).1.headers ∧
    ("Cross-Origin-Opener-Policy", "same-origin") ∈ (handleGET root p).1.headers := by
  unfold handleGET
  rw [h]
  simp [end_headers, coiHeaders]

/-- C5: on a machine where the root exists and the port is free, startup
produces exactly the trace chdir, bind, the two announcement prints, then
the accept loop — so the bind strictly precedes both prints and the prints
strictly precede accepting connections; and a second instance started
while the port is taken dies with a bind error instead of silently
succeeding. -/
theorem c5_startup_order_and_second_bind_fails :
    (runMain ⟨true, true⟩).1 =
      [Event.chdirDone ROOT_DIR, Event.bound "" PORT,
       Event.printedLine line1, Event.printedLine line2, Event.serving] ∧
    (runMain ⟨true, true⟩).1.indexOf (Event.bound "" PORT) <
      (runMain ⟨true, true⟩).1.indexOf (Event.printedLine line1) ∧
    (runMain ⟨true, true⟩).1.indexOf (Event.printedLine line2) <
      (runMain ⟨true, true⟩).1.indexOf Event.serving ∧
    (runMain ⟨true, false⟩).2 = some StartupError.bindFailed := by
  decide

/-- C6: when binding the listener fails, the error propagates uncaught,
the process exits non-zero with the bind error surfaced, and the trace
never reaches the accept loop — nothing catches, retries, or continues
serving after the failure. -/
theorem c6_bind_failure_is_fatal (env : Env)
    (hroot : env.rootExists = true) (hport : env.portFree = false) :
    (runMain env).2 = some StartupError.bindFailed ∧
    exitsNonZero env = true ∧
    Event.serving ∉ (runMain env).1 := by
  obtain ⟨re, pf⟩ := env
  simp only [Env.rootExists] at hroot
  simp only [Env.portFree] at hport
  subst hroot
  subst hport
  decide

/-- Closed witness for C6 at the concrete machine state where the root
directory exists and the port is already taken. -/
theorem c6_bind_failure_is_fatal_witness :
    (⟨true, false⟩ : Env).rootExists = true ∧
    (⟨true, false⟩ : Env).portFree = false ∧
    ((runMain ⟨true, false⟩).2 = some StartupError.bindFailed ∧
     exitsNonZero ⟨true, false⟩ = true ∧
     Event.serving ∉ (runMain ⟨true, false⟩).1) :=
  ⟨rfl, rfl, c6_bind_failure_is_fatal ⟨true, false⟩ rfl rfl⟩

/-- C9: when the hard-coded root directory is missing, `os.chdir` raises,
the process dies fatally with an empty event trace — so the listener was
never bound and neither announcement line was printed — and the exit
status is non-zero. -/
theorem c9_missing_root_is_startup_fatal (env : Env)
    (h : env.rootExists = false) :
    (runMain env).2 = some StartupError.chdirNoSuchDir ∧
    (runMain env).1 = [] ∧
    exitsNonZero env = true := by
  obtain ⟨re, pf⟩ := env
  simp only [Env.rootExists] at h
  subst h
  simp [runMain, exitsNonZero]

/-- Closed witness for C9 at the concrete machine state where the root
directory is missing but the port would have been free. -/
theorem c9_missing_root_is_startup_fatal_witness :
    (⟨false, true⟩ : Env).rootExists = false ∧
    ((runMain ⟨false, true⟩).2 = some StartupError.chdirNoSuchDir ∧
     (runMain ⟨false, true⟩).1 = [] ∧
     exitsNonZero ⟨false, true⟩ = true) :=
  ⟨rfl, c9_missing_root_is_startup_fatal ⟨false, true⟩ rfl⟩

/-- C10: the listener host is the empty string, so the bound socket
accepts connections arriving on every interface, while both printed
announcement lines advertise a `localhost` URL. -/
theorem c10_wildcard_host_all_interfaces :
    serverHost = "" ∧
    (∀ iface : String, acceptsOnInterface serverHost iface = true) ∧
    strContains line1 "localhost" ∧
    strContains line2 "localhost" := by
  refine ⟨rfl, fun iface => rfl, ?_, ?_⟩
  · exact ⟨"🌐 Serving VIB34D system at http://", ":" ++ toString PORT, by decide⟩
  · exact ⟨"📋 Live test: http://", ":" ++ toString PORT ++ "/live-test.html", by decide⟩

/-- C7: for a root whose subdirectory `assets` has no index file, a
`GET /assets/` request returns status 200 and an HTML body in which the
name of every regular file inside `assets` occurs (stated for any file
name unchanged by HTML escaping). -/
theorem c7_listing_contains_every_file_name
    (rcs acs : List (String × Entry)) (name content : String)
    (hassets : findEntry rcs "assets" = some (Entry.dir acs))
    (hindex : findIndexFile acs = none)
    (hmem : (name, Entry.file content) ∈ acs)
    (hclean : escapeHtml name = name) :
    (handleGET (Entry.dir rcs) "/assets/").1.status = 200 ∧
    strContains (handleGET (Entry.dir rcs) "/assets/").1.body name := by
  have hg : goodWords "/assets/" = ["assets"] := by decide
  have ht : reqTrailingSlash "/assets/" = true := by decide
  have hl : lookupPath (goodWords "/assets/") (Entry.dir rcs) = some (Entry.dir acs) := by
    rw [hg]
    simp [lookupPath, hassets]
  have hresp : handleGET (Entry.dir rcs) "/assets/" =
      (⟨200, end_headers [("Content-Type", "text/html;charset=utf-8")],
        listingBody "/assets/" acs⟩,
       [FSEff.statPath (goodWords "/assets/"), FSEff.listDir (goodWords "/assets/")]) := by
    unfold handleGET
    rw [hl]
    simp [ht, hindex]
  rw [hresp]
  refine ⟨rfl, ?_⟩
  have hline : strContains (listingLine (name, Entry.file content)) name := by
    have heq : listingLine (name, Entry.file content) =
        "<li><a href=\"" ++ name ++ "\">" ++ name ++ "</a></li>" := by
      simp [listingLine, displayName, hclean]
    rw [heq]
    exact strContains_intro ("<li><a href=\"" ++ name ++ "\">") name "</a></li>"
  have hcat : strContains (concatAll (acs.map listingLine)) name :=
    strContains_trans _ _ _
      (concatAll_contains listingLine acs (name, Entry.file content) hmem) hline
  show strContains (listingBody "/assets/" acs) name
  simp only [listingBody]
  exact strContains_mono _ _ _ _ hcat

/-- C8: over any lifetime of requests, every filesystem effect the handler
performs is a read (file read, directory enumeration or stat), and
replaying the whole lifetime's effects leaves the filesystem tree exactly
as it started: serving never creates, modifies or deletes anything. -/
theorem c8_serving_leaves_filesystem_unchanged (fs : Entry) (reqs : List String) :
    (∀ p : String, ((handleGET fs p).2.all FSEff.isReadOnly) = true) ∧
    serveAll fs reqs = fs :=
  ⟨fun p => handleGET_effects_readOnly fs p, serveAll_id fs reqs⟩

/-- Concrete root directory for the C3 witness. -/
def c3Root : Entry :=
  Entry.dir [("live-test.html", Entry.file "<html>live</html>"),
             ("assets", Entry.dir [])]

/-- Closed witness for C3: a concrete root with a concrete
`live-test.html` is served back byte-for-byte with status 200. -/
theorem c3_get_live_test_html_witness :
    lookupPath ["live-test.html"] c3Root = some (Entry.file "<html>live</html>") ∧
    ((handleGET c3Root "/live-test.html").1.status = 200 ∧
     (handleGET c3Root "/live-test.html").1.body = "<html>live</html>") :=
  ⟨rfl, c3_get_live_test_html c3Root "<html>live</html>" rfl⟩

/-- Concrete root directory for the C4 witness: it has no
`missing.html`. -/
def c4Root : Entry :=
  Entry.dir [("live-test.html", Entry.file "x")]

/-- Closed witness for C4: `GET /missing.html` against a concrete root
without that file gets a 404 that still carries both headers. -/
theorem c4_missing_resolves_404_witness :
    lookupPath (goodWords "/missing.html") c4Root = none ∧
    ((handleGET c4Root "/missing.html").1.status = 404 ∧
     ("Cross-Origin-Embedder-Policy", "require-corp") ∈
       (handleGET c4Root "/missing.html").1.headers ∧
     ("Cross-Origin-Opener-Policy", "same-origin") ∈
       (handleGET c4Root "/missing.html").1.headers) :=
  ⟨rfl, c4_missing_resolves_404 c4Root "/missing.html" rfl⟩

/-- Root subtree for the C2 witness. -/
def c2Root : Entry :=
  Entry.dir [("live-test.html", Entry.file "hello")]

/-- A whole-machine filesystem for the C2 witness: the served root lives
at `/srv/www` and `/etc/passwd` lies outside it. -/
def c2World : Entry :=
  Entry.dir [("etc", Entry.dir [("passwd", Entry.file "root:x:0:0:root")]),
             ("srv", Entry.dir [("www", c2Root)])]

/-- Closed witness for C2 at the classic traversal request
`/../../etc/passwd`: resolution stays under `/srv/www` and agrees with
resolution inside the root subtree (where the file does not exist). -/
theorem c2_traversal_confined_witness :
    lookupPath ["srv", "www"] c2World = some c2Root ∧
    (["srv", "www"] <+: translate_path ["srv", "www"] "/../../etc/passwd" ∧
     (∀ w ∈ goodWords "/../../etc/passwd", w ≠ "" ∧ w ≠ "." ∧ w ≠ "..") ∧
     lookupPath (translate_path ["srv", "www"] "/../../etc/passwd") c2World =
       lookupPath (goodWords "/../../etc/passwd") c2Root) :=
  ⟨rfl, c2_traversal_confined c2World c2Root ["srv", "www"] "/../../etc/passwd" rfl⟩

/-- The `assets` directory contents for the C7 witness. -/
def c7Assets : List (String × Entry) :=
  [("a.png", Entry.file "PNGDATA"), ("b.txt", Entry.file "hello"),
   ("sub", Entry.dir [])]

/-- The root directory contents for the C7 witness. -/
def c7Root : List (String × Entry) :=
  [("assets", Entry.dir c7Assets), ("live-test.html", Entry.file "x")]

/-- Closed witness for C7: the generated listing of a concrete `assets`
directory contains the concrete file name `a.png`. -/
theorem c7_listing_contains_every_file_name_witness :
    findEntry c7Root "assets" = some (Entry.dir c7Assets) ∧
    findIndexFile c7Assets = none ∧
    ("a.png", Entry.file "PNGDATA") ∈ c7Assets ∧
    escapeHtml "a.png" = "a.png" ∧
    ((handleGET (Entry.dir c7Root) "/assets/").1.status = 200 ∧
     strContains (handleGET (Entry.dir c7Root) "/assets/").1.body "a.png") :=
  ⟨rfl, rfl, List.Mem.head _, rfl,
   c7_listing_contains_every_file_name c7Root c7Assets "a.png" "PNGDATA"
     rfl rfl (List.Mem.head _) rfl⟩

end ServeLocal
